import Mathlib

/-!
Shallow embedding of `src/process.py`: Monte Carlo path simulators for
Geometric Brownian Motion and the Heston stochastic-volatility model.

Modelling conventions:
* numpy float64 arithmetic is modelled by real arithmetic (`ℝ`);
  `np.sqrt` is `Real.sqrt`, `np.exp` is `Real.exp`.
* A numpy 2-D array is a `Mat`: an explicit shape together with a total
  entry function; only entries within the shape are meaningful.
* numpy's global pseudorandom generator is modelled by an explicit `RNG`
  state: an unbounded stream of real draws and a position.  `np.random.randn`
  reads consecutive draws and advances the position.  `np.random.seed(k)`
  replaces the state by a stream determined by `k` alone; the map from seed
  to stream is an arbitrary parameter `seedFn` supplied to `simulate`, since
  the Mersenne-Twister bit generator itself is outside the embedding.
* Python's `if seed:` guard is truthy exactly when `seed` is neither `None`
  nor `0`; `seed` is embedded as `Option ℤ`.
-/

/-- A dense 2-D numpy array: shape plus entry function (row, column). -/
structure Mat where
  rows : ℕ
  cols : ℕ
  entry : ℕ → ℕ → ℝ

/-- State of the shared pseudorandom generator: a stream of upcoming
standard-normal draws and the current offset into it. -/
structure RNG where
  stream : ℕ → ℝ
  pos : ℕ

/-- Embedding of `np.random.randn(r, c)`: an `r × c` array read row-major
from the stream, and the advanced generator state. -/
def drawMat (g : RNG) (r c : ℕ) : (ℕ → ℕ → ℝ) × RNG :=
  (fun i j => g.stream (g.pos + (i * c + j)), ⟨g.stream, g.pos + r * c⟩)

/-- Embedding of the seed guard `if seed: np.random.seed(seed)` shared by
both simulators (src/process.py lines 36-37 and 77-78).  Python truthiness:
`None` and `0` leave the generator's ambient state untouched; any other
integer resets the state deterministically from the seed via `seedFn`. -/
def applySeed (seedFn : ℤ → ℕ → ℝ) (seed : Option ℤ) (g : RNG) : RNG :=
  match seed with
  | none => g
  | some k => if k = 0 then g else ⟨seedFn k, 0⟩

/-- The dataclass `GeometricBrownianMotion(mu, sigma)`. -/
structure GeometricBrownianMotion where
  mu : ℝ
  sigma : ℝ

/-- The Brownian grid of `GeometricBrownianMotion.simulate`:
`W = signe * np.cumsum(np.sqrt(dt) * np.random.randn(m + 1, n), axis=0)`
followed by `W[0] = 0`. -/
noncomputable def gbmW (signe dt : ℝ) (z : ℕ → ℕ → ℝ) : ℕ → ℕ → ℝ :=
  fun i j => if i = 0 then 0 else signe * ∑ k in Finset.range (i + 1), Real.sqrt dt * z k j

/-- Embedding of `GeometricBrownianMotion.simulate` (src/process.py lines
25-49).  The unused `v0` keyword argument of the source is kept.  The
returned `RNG` models the advance of the global numpy generator state. -/
noncomputable def GeometricBrownianMotion.simulate
    (p : GeometricBrownianMotion) (seedFn : ℤ → ℕ → ℝ)
    (s0 : ℝ) (T : ℝ) (n m : ℕ) (v0 : Option ℝ)
    (antithetic : Bool) (seed : Option ℤ) (g : RNG) : Mat × RNG :=
  let g1 := applySeed seedFn seed g
  let signe : ℝ := if antithetic then -1 else 1
  let dt := T / (m : ℝ)
  let d := drawMat g1 (m + 1) n
  let z := d.1
  let W := gbmW signe dt z
  let Tg : ℕ → ℝ := fun i => (i : ℝ) * T / (m : ℝ)
  (⟨m + 1, n, fun i j =>
      s0 * Real.exp ((p.mu - 0.5 * p.sigma ^ 2) * Tg i + p.sigma * W i j)⟩, d.2)

/-- Modelled from the spec: the reconstruction of the driving Brownian path
from a GBM output matrix, `W = (log(s/s0) - (mu - 0.5*sigma^2)*T_grid)/sigma`,
used by the antithetic-negation property.  (This formula is the spec's
verification recipe, not code of the repository.) -/
noncomputable def recoverW (p : GeometricBrownianMotion) (s0 T : ℝ) (m : ℕ)
    (M : Mat) : ℕ → ℕ → ℝ :=
  fun i j =>
    (Real.log (M.entry i j / s0) - (p.mu - 0.5 * p.sigma ^ 2) * ((i : ℝ) * T / (m : ℝ))) / p.sigma

/-- The dataclass `HestonProcess(mu, kappa, theta, eta, rho, milstein=True)`. -/
structure HestonProcess where
  mu : ℝ
  kappa : ℝ
  theta : ℝ
  eta : ℝ
  rho : ℝ
  milstein : Bool

/-- Noise preparation of `HestonProcess.simulate` (src/process.py lines
81-85): `z2 = rho*z1 + sqrt(1-rho^2)*randn`, then
`z1, z2 = z1*signe, z2*signe`.  Takes the two raw independent draws and
returns the pair actually fed to the recursion. -/
noncomputable def HestonProcess.noise (p : HestonProcess) (antithetic : Bool)
    (z1raw z2raw : ℕ → ℕ → ℝ) : (ℕ → ℕ → ℝ) × (ℕ → ℕ → ℝ) :=
  let z2c : ℕ → ℕ → ℝ := fun i j =>
    p.rho * z1raw i j + Real.sqrt (1 - p.rho ^ 2) * z2raw i j
  let signe : ℝ := if antithetic then -1 else 1
  (fun i j => z1raw i j * signe, fun i j => z2c i j * signe)

/-- One-step variance update formula of the Heston recursion
(src/process.py lines 96-101):
`v + kappa*(theta - v)*dt + eta*sqrt(v*dt)*z1 + (eta^2/4*(z1^2 - 1)*dt if milstein else 0)`. -/
noncomputable def HestonProcess.vNext (p : HestonProcess) (dt v z : ℝ) : ℝ :=
  v + p.kappa * (p.theta - v) * dt + p.eta * Real.sqrt (v * dt) * z +
    (if p.milstein then p.eta ^ 2 / 4 * (z ^ 2 - 1) * dt else 0)

/-- The assignment `v[i + 1] = ...` of iteration `i`: row `i + 1` receives the
variance update, every other row of `v` is unchanged. -/
noncomputable def HestonProcess.vUpd (p : HestonProcess) (dt : ℝ)
    (z1 : ℕ → ℕ → ℝ) (i : ℕ) (v : ℕ → ℕ → ℝ) : ℕ → ℕ → ℝ :=
  fun r j => if r = i + 1 then p.vNext dt (v i j) (z1 i j) else v r j

/-- Elementwise branch of `np.where(v > 0, v, -v)`. -/
noncomputable def reflect (x : ℝ) : ℝ := if 0 < x then x else -x

/-- Loop-carried state of `HestonProcess.simulate`: the arrays `s`, `x`, `v`. -/
structure HState where
  s : ℕ → ℕ → ℝ
  x : ℕ → ℕ → ℝ
  v : ℕ → ℕ → ℝ

/-- Body of iteration `i` of the Heston time loop (src/process.py lines
94-106): update `v[i+1]`; reflect the whole `v` array
(`v = np.where(v > 0, v, -v)`); update `x[i+1]` (using the post-reflection
`v[i]`); overwrite `s[1:] = s[0] * np.exp(x[1:])`. -/
noncomputable def HestonProcess.step (p : HestonProcess) (dt : ℝ)
    (z1 z2 : ℕ → ℕ → ℝ) (i : ℕ) (st : HState) : HState :=
  let vRef : ℕ → ℕ → ℝ := fun r j => reflect (p.vUpd dt z1 i st.v r j)
  let xUpd : ℕ → ℕ → ℝ := fun r j =>
    if r = i + 1 then
      st.x i j + (p.mu - vRef i j / 2) * dt + Real.sqrt (vRef i j * dt) * z2 i j
    else st.x r j
  let sUpd : ℕ → ℕ → ℝ := fun r j =>
    if r = 0 then st.s r j else st.s 0 j * Real.exp (xUpd r j)
  ⟨sUpd, xUpd, vRef⟩

/-- The `for i in range(m)` loop: `loop k` performs iterations `0 .. k-1`
in order. -/
noncomputable def HestonProcess.loop (p : HestonProcess) (dt : ℝ)
    (z1 z2 : ℕ → ℕ → ℝ) : ℕ → HState → HState
  | 0, st => st
  | k + 1, st => p.step dt z1 z2 k (p.loop dt z1 z2 k st)

/-- Embedding of `HestonProcess.simulate` (src/process.py lines 63-110).
The Python function returns `s` alone when `return_vol` is false and the
pair `(s, v)` when it is true; the embedding always exposes both grids so
either result is observable, and keeps the `return_vol` argument. -/
noncomputable def HestonProcess.simulate (p : HestonProcess)
    (seedFn : ℤ → ℕ → ℝ) (s0 v0 : ℝ) (T : ℝ) (n m : ℕ)
    (return_vol antithetic : Bool) (seed : Option ℤ) (g : RNG) :
    (Mat × Mat) × RNG :=
  let g1 := applySeed seedFn seed g
  let dt := T / (m : ℝ)
  let d1 := drawMat g1 m n
  let d2 := drawMat d1.2 m n
  let zz := p.noise antithetic d1.1 d2.1
  let st0 : HState :=
    ⟨fun r j => if r = 0 then s0 else 0, fun _ _ => 0, fun r j => if r = 0 then v0 else 0⟩
  let st := p.loop dt zz.1 zz.2 m st0
  ((⟨m + 1, n, st.s⟩, ⟨m + 1, n, st.v⟩), d2.2)

/-! Helper lemmas about the reflection floor. -/

theorem reflect_nonneg (x : ℝ) : 0 ≤ reflect x := by
  unfold reflect
  split
  · linarith
  · linarith

theorem reflect_eq_abs (x : ℝ) : reflect x = |x| := by
  unfold reflect
  split
  · exact (abs_of_pos (by assumption)).symm
  · exact (abs_of_nonpos (by linarith)).symm

theorem reflect_of_nonneg {x : ℝ} (h : 0 ≤ x) : reflect x = x := by
  rw [reflect_eq_abs]
  exact abs_of_nonneg h

/-- C2: for both simulators and every m ≥ 1, n ≥ 1, the returned price
matrix (and for Heston also the variance matrix) has exactly m + 1 rows and
n columns. -/
theorem simulate_shapes
    (p : GeometricBrownianMotion) (q : HestonProcess) (seedFn : ℤ → ℕ → ℝ)
    (s0 v0 T : ℝ) (n m : ℕ) (vArg : Option ℝ) (rv anti : Bool)
    (seed : Option ℤ) (g g' : RNG) (hm : 1 ≤ m) (hn : 1 ≤ n) :
    ((p.simulate seedFn s0 T n m vArg anti seed g).1.rows = m + 1 ∧
     (p.simulate seedFn s0 T n m vArg anti seed g).1.cols = n) ∧
    ((q.simulate seedFn s0 v0 T n m rv anti seed g').1.1.rows = m + 1 ∧
     (q.simulate seedFn s0 v0 T n m rv anti seed g').1.1.cols = n ∧
     (q.simulate seedFn s0 v0 T n m rv anti seed g').1.2.rows = m + 1 ∧
     (q.simulate seedFn s0 v0 T n m rv anti seed g').1.2.cols = n) :=
  ⟨⟨rfl, rfl⟩, rfl, rfl, rfl, rfl⟩

/-- Witness for C2 at a concrete instance (m = n = 1). -/
theorem simulate_shapes_witness :
    ((GeometricBrownianMotion.mk 0 1).simulate (fun _ _ => 0) 1 1 1 1 none
        false none ⟨fun _ => 0, 0⟩).1.rows = 1 + 1 ∧
    ((HestonProcess.mk 0 0 0 0 0 true).simulate (fun _ _ => 0) 1 1 1 1 1
        false false none ⟨fun _ => 0, 0⟩).1.2.cols = 1 :=
  ⟨(simulate_shapes (GeometricBrownianMotion.mk 0 1) (HestonProcess.mk 0 0 0 0 0 true)
      (fun _ _ => 0) 1 1 1 1 1 none false false none ⟨fun _ => 0, 0⟩ ⟨fun _ => 0, 0⟩
      (by norm_num) (by norm_num)).1.1,
   (simulate_shapes (GeometricBrownianMotion.mk 0 1) (HestonProcess.mk 0 0 0 0 0 true)
      (fun _ _ => 0) 1 1 1 1 1 none false false none ⟨fun _ => 0, 0⟩ ⟨fun _ => 0, 0⟩
      (by norm_num) (by norm_num)).2.2.2.2⟩

/-- C3: row 0 of a GBM simulation equals s0 in every column, for any
parameters, antithetic flag and seed. -/
theorem gbm_row0 (p : GeometricBrownianMotion) (seedFn : ℤ → ℕ → ℝ)
    (s0 T : ℝ) (n m : ℕ) (v0 : Option ℝ) (anti : Bool) (seed : Option ℤ)
    (g : RNG) (hm : 1 ≤ m) (hn : 1 ≤ n) (j : ℕ) (hj : j < n) :
    (p.simulate seedFn s0 T n m v0 anti seed g).1.entry 0 j = s0 := by
  simp [GeometricBrownianMotion.simulate, gbmW]

/-- Witness for C3 at a concrete instance. -/
theorem gbm_row0_witness :
    ((GeometricBrownianMotion.mk 0.05 0.2).simulate (fun _ _ => 0) 100 1 1 1
        none false (some 42) ⟨fun _ => 0, 0⟩).1.entry 0 0 = 100 :=
  gbm_row0 (GeometricBrownianMotion.mk 0.05 0.2) (fun _ _ => 0) 100 1 1 1
    none false (some 42) ⟨fun _ => 0, 0⟩ (by norm_num) (by norm_num) 0 (by norm_num)

/-- C9: for any state and draw, the Heston variance update with
milstein = true is exactly the update with milstein = false plus the
correction term eta^2/4*(z^2 - 1)*dt. -/
theorem heston_milstein_term (mu kappa theta eta rho : ℝ) (dt v z : ℝ) :
    (HestonProcess.mk mu kappa theta eta rho true).vNext dt v z
      = (HestonProcess.mk mu kappa theta eta rho false).vNext dt v z
        + eta ^ 2 / 4 * (z ^ 2 - 1) * dt := by
  simp only [HestonProcess.vNext, if_true, if_false]
  norm_num

/-- C10: calling either simulator with seed = 0 is identical to calling it
with no seed at all: the guard treats 0 as absent and the ambient generator
state is used unchanged. -/
theorem seed_zero_ambient (p : GeometricBrownianMotion) (q : HestonProcess)
    (seedFn : ℤ → ℕ → ℝ) (s0 v0 T : ℝ) (n m : ℕ) (vArg : Option ℝ)
    (rv anti : Bool) (g g' : RNG) :
    p.simulate seedFn s0 T n m vArg anti (some 0) g
      = p.simulate seedFn s0 T n m vArg anti none g ∧
    q.simulate seedFn s0 v0 T n m rv anti (some 0) g'
      = q.simulate seedFn s0 v0 T n m rv anti none g' := by
  constructor <;>
    simp [GeometricBrownianMotion.simulate, HestonProcess.simulate, applySeed]

/-- C7: the pair of noise grids fed to the Heston recursion is the
Cholesky correlation of the two raw independent draws, computed before any
antithetic flip, with the sign multiplier then applied uniformly to both. -/
theorem heston_noise_correlate_then_flip (p : HestonProcess) (anti : Bool)
    (r1 r2 : ℕ → ℕ → ℝ) (i j : ℕ) :
    (p.noise anti r1 r2).1 i j = (if anti then (-1 : ℝ) else 1) * r1 i j ∧
    (p.noise anti r1 r2).2 i j
      = (if anti then (-1 : ℝ) else 1)
        * (p.rho * r1 i j + Real.sqrt (1 - p.rho ^ 2) * r2 i j) := by
  cases anti <;> constructor <;> simp [HestonProcess.noise]

/-! Helper lemmas about the Heston time loop. -/

theorem hestonLoop_s_row0 (q : HestonProcess) (dt : ℝ) (z1 z2 : ℕ → ℕ → ℝ)
    (k : ℕ) (st : HState) (j : ℕ) :
    (q.loop dt z1 z2 k st).s 0 j = st.s 0 j := by
  induction k with
  | zero => rfl
  | succ k ih => simpa [HestonProcess.loop, HestonProcess.step] using ih

theorem hestonLoop_v_row0 (q : HestonProcess) (dt : ℝ) (z1 z2 : ℕ → ℕ → ℝ)
    (k : ℕ) (st : HState) (j : ℕ) (h : 0 ≤ st.v 0 j) :
    (q.loop dt z1 z2 k st).v 0 j = st.v 0 j := by
  induction k with
  | zero => rfl
  | succ k ih =>
      simp only [HestonProcess.loop, HestonProcess.step, HestonProcess.vUpd]
      rw [if_neg (by omega : ¬(0 = k + 1))]
      rw [ih]
      exact reflect_of_nonneg h

/-- C1: every entry of the variance grid returned by a Heston simulation
with m ≥ 1 is non-negative, for any parameter combination: the final loop
iteration leaves the whole array reflected. -/
theorem heston_variance_nonneg (q : HestonProcess) (seedFn : ℤ → ℕ → ℝ)
    (s0 v0 T : ℝ) (n m : ℕ) (rv anti : Bool) (seed : Option ℤ) (g : RNG)
    (hm : 1 ≤ m) (i j : ℕ) (hi : i ≤ m) (hj : j < n) :
    0 ≤ (q.simulate seedFn s0 v0 T n m rv anti seed g).1.2.entry i j := by
  obtain ⟨k, rfl⟩ : ∃ k, m = k + 1 := ⟨m - 1, (Nat.succ_pred_eq_of_pos hm).symm⟩
  simp only [HestonProcess.simulate, HestonProcess.loop, HestonProcess.step]
  exact reflect_nonneg _

/-- Witness for C1 at a concrete instance. -/
theorem heston_variance_nonneg_witness :
    0 ≤ ((HestonProcess.mk 0.03 2 0.04 0.3 (-0.7) true).simulate (fun _ _ => 0)
        100 0.04 1 1 1 true false (some 7) ⟨fun _ => 0, 0⟩).1.2.entry 1 0 :=
  heston_variance_nonneg (HestonProcess.mk 0.03 2 0.04 0.3 (-0.7) true)
    (fun _ _ => 0) 100 0.04 1 1 1 true false (some 7) ⟨fun _ => 0, 0⟩
    (by norm_num) 1 0 (by norm_num) (by norm_num)

/-- C4 counterexample: with v0 = -1 (and m = n = 1), row 0 of the returned
variance grid is 1, not v0: the in-loop reflection flips the initial row as
well, so the claim fails for negative v0. -/
theorem heston_row0_counterexample :
    ((HestonProcess.mk 0 0 0 0 0 false).simulate (fun _ _ => 0) 1 (-1) 1 1 1
        true false none ⟨fun _ => 0, 0⟩).1.2.entry 0 0 ≠ (-1 : ℝ) := by
  simp only [HestonProcess.simulate, HestonProcess.loop, HestonProcess.step,
    HestonProcess.vUpd, reflect]
  norm_num

/-- C4 amended: row 0 of the returned price grid equals s0 in every column
for any v0, and row 0 of the returned variance grid equals v0 in every
column provided v0 ≥ 0 (a negative v0 is reflected to its absolute value by
the first loop iteration). -/
theorem heston_row0_amended (q : HestonProcess) (seedFn : ℤ → ℕ → ℝ)
    (s0 v0 T : ℝ) (n m : ℕ) (rv anti : Bool) (seed : Option ℤ) (g : RNG)
    (hm : 1 ≤ m) (j : ℕ) (hj : j < n) :
    (q.simulate seedFn s0 v0 T n m rv anti seed g).1.1.entry 0 j = s0 ∧
    (0 ≤ v0 → (q.simulate seedFn s0 v0 T n m rv anti seed g).1.2.entry 0 j = v0) := by
  constructor
  · simp only [HestonProcess.simulate]
    rw [hestonLoop_s_row0]
    simp
  · intro hv
    simp only [HestonProcess.simulate]
    rw [hestonLoop_v_row0]
    · simp
    · simpa using hv

/-- Witness for C4 (amended) at a concrete instance. -/
theorem heston_row0_amended_witness :
    ((HestonProcess.mk 0.03 2 0.04 0.3 (-0.7) true).simulate (fun _ _ => 0)
        100 0.04 1 1 5 true false (some 7) ⟨fun _ => 0, 0⟩).1.1.entry 0 0 = 100 ∧
    ((HestonProcess.mk 0.03 2 0.04 0.3 (-0.7) true).simulate (fun _ _ => 0)
        100 0.04 1 1 5 true false (some 7) ⟨fun _ => 0, 0⟩).1.2.entry 0 0 = 0.04 :=
  ⟨(heston_row0_amended (HestonProcess.mk 0.03 2 0.04 0.3 (-0.7) true)
      (fun _ _ => 0) 100 0.04 1 1 5 true false (some 7) ⟨fun _ => 0, 0⟩
      (by norm_num) 0 (by norm_num)).1,
   (heston_row0_amended (HestonProcess.mk 0.03 2 0.04 0.3 (-0.7) true)
      (fun _ _ => 0) 100 0.04 1 1 5 true false (some 7) ⟨fun _ => 0, 0⟩
      (by norm_num) 0 (by norm_num)).2 (by norm_num)⟩

/-- C8: after iteration i of the Heston time loop, the whole variance array
(every row r, every column j, not only row i + 1) equals the absolute value
of the array as it stood just after the row-(i+1) variance update; a
negative entry is negated, not clamped to zero. -/
theorem heston_reflection_whole_array (q : HestonProcess) (dt : ℝ)
    (z1 z2 : ℕ → ℕ → ℝ) (st : HState) (i r j : ℕ) :
    (q.loop dt z1 z2 (i + 1) st).v r j
      = |q.vUpd dt z1 i (q.loop dt z1 z2 i st).v r j| ∧
    (q.vUpd dt z1 i (q.loop dt z1 z2 i st).v r j < 0 →
      (q.loop dt z1 z2 (i + 1) st).v r j
        = -(q.vUpd dt z1 i (q.loop dt z1 z2 i st).v r j) ∧
      0 < (q.loop dt z1 z2 (i + 1) st).v r j) := by
  have hv : (q.loop dt z1 z2 (i + 1) st).v r j
      = reflect (q.vUpd dt z1 i (q.loop dt z1 z2 i st).v r j) := by
    simp only [HestonProcess.loop, HestonProcess.step]
  refine ⟨hv.trans (reflect_eq_abs _), fun h => ⟨?_, ?_⟩⟩
  · rw [hv, reflect, if_neg (by linarith)]
  · rw [hv, reflect, if_neg (by linarith)]
    linarith

/-- Witness for C8: a concrete state with a negative entry in a row other
than the updated one (row 5 at iteration 0) is negated to a positive value. -/
theorem heston_reflection_whole_array_witness :
    ((HestonProcess.mk 0 0 0 0 0 false).loop 1 (fun _ _ => 0) (fun _ _ => 0)
        (0 + 1) ⟨fun _ _ => 0, fun _ _ => 0, fun _ _ => -1⟩).v 5 0
      = -((HestonProcess.mk 0 0 0 0 0 false).vUpd 1 (fun _ _ => 0) 0
          (((HestonProcess.mk 0 0 0 0 0 false).loop 1 (fun _ _ => 0)
            (fun _ _ => 0) 0 ⟨fun _ _ => 0, fun _ _ => 0, fun _ _ => -1⟩).v) 5 0) :=
  ((heston_reflection_whole_array (HestonProcess.mk 0 0 0 0 0 false) 1
      (fun _ _ => 0) (fun _ _ => 0) ⟨fun _ _ => 0, fun _ _ => 0, fun _ _ => -1⟩
      0 5 0).2
    (by simp only [HestonProcess.loop, HestonProcess.vUpd]
        norm_num)).1

/-- Recovery lemma: applying the spec's reconstruction formula to a GBM
output matrix returns exactly the Brownian grid `W` that drove the call. -/
theorem gbm_recoverW_eq (p : GeometricBrownianMotion) (seedFn : ℤ → ℕ → ℝ)
    (s0 T : ℝ) (n m : ℕ) (v0 : Option ℝ) (anti : Bool) (seed : Option ℤ)
    (g : RNG) (hs0 : 0 < s0) (hsig : p.sigma ≠ 0) (i j : ℕ) :
    recoverW p s0 T m (p.simulate seedFn s0 T n m v0 anti seed g).1 i j
      = gbmW (if anti then (-1 : ℝ) else 1) (T / (m : ℝ))
          (drawMat (applySeed seedFn seed g) (m + 1) n).1 i j := by
  unfold recoverW GeometricBrownianMotion.simulate
  simp only
  rw [mul_comm, mul_div_assoc, div_self hs0.ne', mul_one, Real.log_exp,
    add_comm, add_sub_assoc, sub_self, add_zero, mul_comm p.sigma,
    mul_div_assoc, div_self hsig, mul_one]

/-- C6: with identical seed argument and ambient generator state, the
Brownian path reconstructed from the antithetic GBM call via
`(log(s/s0) - (mu - 0.5*sigma^2)*T_grid)/sigma` is the exact entrywise
negation of the path reconstructed from the non-antithetic call. -/
theorem gbm_antithetic_negation (p : GeometricBrownianMotion)
    (seedFn : ℤ → ℕ → ℝ) (s0 T : ℝ) (n m : ℕ) (v0 : Option ℝ)
    (seed : Option ℤ) (g : RNG) (hs0 : 0 < s0) (hsig : p.sigma ≠ 0)
    (i j : ℕ) :
    recoverW p s0 T m (p.simulate seedFn s0 T n m v0 true seed g).1 i j
      = -recoverW p s0 T m (p.simulate seedFn s0 T n m v0 false seed g).1 i j := by
  rw [gbm_recoverW_eq p seedFn s0 T n m v0 true seed g hs0 hsig,
    gbm_recoverW_eq p seedFn s0 T n m v0 false seed g hs0 hsig]
  by_cases hi : i = 0 <;> simp [gbmW, hi]

/-- Witness for C6 at a concrete instance (s0 = 1, sigma = 1, m = n = 1). -/
theorem gbm_antithetic_negation_witness :
    recoverW (GeometricBrownianMotion.mk 0 1) 1 1 1
        ((GeometricBrownianMotion.mk 0 1).simulate (fun _ _ => 0) 1 1 1 1 none
          true (some 3) ⟨fun _ => 0, 0⟩).1 1 0
      = -recoverW (GeometricBrownianMotion.mk 0 1) 1 1 1
          ((GeometricBrownianMotion.mk 0 1).simulate (fun _ _ => 0) 1 1 1 1 none
            false (some 3) ⟨fun _ => 0, 0⟩).1 1 0 :=
  gbm_antithetic_negation (GeometricBrownianMotion.mk 0 1) (fun _ _ => 0)
    1 1 1 1 none (some 3) ⟨fun _ => 0, 0⟩ (by norm_num) (by norm_num) 1 0

/-- C5 counterexample: two GBM calls with the identical seed argument 0 and
identical parameters but different ambient generator states return different
matrices — the seed guard treats 0 as absent, so seed 0 does not make the
output a function of the arguments alone. -/
theorem determinism_counterexample :
    ((GeometricBrownianMotion.mk 0 1).simulate (fun _ _ => 0) 1 1 1 1 none
        false (some 0) ⟨fun _ => 0, 0⟩).1.entry 1 0
      ≠ ((GeometricBrownianMotion.mk 0 1).simulate (fun _ _ => 0) 1 1 1 1 none
          false (some 0) ⟨fun _ => 1, 0⟩).1.entry 1 0 := by
  simp only [GeometricBrownianMotion.simulate, applySeed, gbmW, drawMat]
  norm_num [Finset.sum_range_succ, Real.exp_eq_exp]

/-- C5 amended: two calls to either simulator with an identical non-zero
integer seed and identical parameters return identical matrices, whatever
the ambient generator states of the two calls were. -/
theorem determinism_amended (p : GeometricBrownianMotion) (q : HestonProcess)
    (seedFn : ℤ → ℕ → ℝ) (k : ℤ) (hk : k ≠ 0) (g g' : RNG)
    (s0 v0 T : ℝ) (n m : ℕ) (vArg : Option ℝ) (rv anti : Bool) :
    (p.simulate seedFn s0 T n m vArg anti (some k) g).1
      = (p.simulate seedFn s0 T n m vArg anti (some k) g').1 ∧
    (q.simulate seedFn s0 v0 T n m rv anti (some k) g).1
      = (q.simulate seedFn s0 v0 T n m rv anti (some k) g').1 := by
  have h : ∀ gg : RNG, applySeed seedFn (some k) gg = ⟨seedFn k, 0⟩ := by
    intro gg
    simp [applySeed, hk]
  constructor
  · simp only [GeometricBrownianMotion.simulate]
    rw [h g, h g']
  · simp only [HestonProcess.simulate]
    rw [h g, h g']

/-- Witness for C5 (amended) at a concrete instance: seed 42, two distinct
ambient states. -/
theorem determinism_amended_witness :
    ((GeometricBrownianMotion.mk 0 1).simulate (fun _ _ => 0) 1 1 1 1 none
        false (some 42) ⟨fun _ => 0, 0⟩).1
      = ((GeometricBrownianMotion.mk 0 1).simulate (fun _ _ => 0) 1 1 1 1 none
          false (some 42) ⟨fun _ => 1, 5⟩).1 :=
  (determinism_amended (GeometricBrownianMotion.mk 0 1)
    (HestonProcess.mk 0 0 0 0 0 true) (fun _ _ => 0) 42 (by norm_num)
    ⟨fun _ => 0, 0⟩ ⟨fun _ => 1, 5⟩ 1 1 1 1 1 none false false).1
